import Mathlib

/-!
# Insight confidence bridge (`LearningBridge`) — verification development

The repository ships the test suite of the bridge
(`v3/@claude-flow/memory/src/learning-bridge.test.ts`) but not the bridge
implementation itself (`learning-bridge.ts`).  The definitions below are
therefore a shallow embedding modelled from the specification of the bridge
(spec.md §§3–7): the confidence model, the trajectory tracker, the
consolidation scheduler, the decay sweep, the pattern query and the
lifecycle.  External collaborators (storage backend, pattern learner) are
modelled as oracle inputs to each operation: the outcome of each fallible
external call is an explicit argument, and the calls the bridge would issue
are recorded in the operation's output so that claims about "no backend
write" or "the load is attempted at most once" are statable.  Numbers are
idealized as exact rationals.
-/

namespace LearningBridge

/-- Modelled from the spec: a metadata value of a memory entry (a number such
as `confidence`, or a string such as `category`). -/
inductive MetaVal where
  | num (q : ℚ)
  | str (s : String)
deriving DecidableEq, Repr

/-- Modelled from the spec: a memory entry as seen by the bridge — its id,
its metadata record (an association list, preserving arbitrary extra keys)
and its last-update timestamp in milliseconds. -/
structure Entry where
  id : String
  metadata : List (String × MetaVal)
  updatedAt : ℤ
deriving DecidableEq, Repr

/-- Modelled from the spec: an insight
`{ category, summary, source, confidence }`. -/
structure Insight where
  category : String
  summary : String
  source : String
  confidence : ℚ
deriving DecidableEq, Repr

/-- Modelled from the spec: the bridge configuration surface with its stated
defaults (boost 0.03, decay 0.005/hour, min 0.1, max 1.0, threshold 10). -/
structure LearningBridgeConfig where
  enabled : Bool
  accessBoostAmount : ℚ
  confidenceDecayRate : ℚ
  maxConfidence : ℚ
  minConfidence : ℚ
  consolidationThreshold : ℕ
deriving DecidableEq, Repr

/-- The default configuration of the bridge. -/
def defaultConfig : LearningBridgeConfig :=
  { enabled := true
    accessBoostAmount := 3/100
    confidenceDecayRate := 1/200
    maxConfidence := 1
    minConfidence := 1/10
    consolidationThreshold := 10 }

/-- Modelled from the spec: clamp a value into `[lo, hi]` (for `lo ≤ hi`
this agrees with `max lo (min hi x)`, see `clamp_eq_max_min`). -/
def clamp (lo hi x : ℚ) : ℚ := if x ≤ lo then lo else if hi ≤ x then hi else x

theorem clamp_eq_max_min (lo hi x : ℚ) (h : lo ≤ hi) :
    clamp lo hi x = max lo (min hi x) := by
  unfold clamp
  rcases le_or_lt x lo with h1 | h1 <;> rcases le_or_lt hi x with h2 | h2 <;>
    simp [max_def, min_def] <;> split_ifs <;> linarith

/-- Look up `metadata.confidence`; `none` when the key is absent or not a
number. -/
def metaConfidence (md : List (String × MetaVal)) : Option ℚ :=
  match md.lookup "confidence" with
  | some (MetaVal.num q) => some q
  | _ => none

/-- Modelled from the spec, Confidence Model:
`boost(current) = clamp(current + accessBoostAmount, minConfidence,
maxConfidence)`, a missing current confidence defaulting to 0.5. -/
def boost (cfg : LearningBridgeConfig) (current : Option ℚ) : ℚ :=
  clamp cfg.minConfidence cfg.maxConfidence (current.getD (1/2) + cfg.accessBoostAmount)

/-- Modelled from the spec, Confidence Model:
`decay(current, hoursElapsed) = clamp(current - decayRate * hoursElapsed,
minConfidence, maxConfidence)`. -/
def decayConf (cfg : LearningBridgeConfig) (current hoursElapsed : ℚ) : ℚ :=
  clamp cfg.minConfidence cfg.maxConfidence (current - cfg.confidenceDecayRate * hoursElapsed)

/-- Set key `k` to `v` in an association list, preserving every other key
(replace in place when present, append when absent — the JS object spread
`{...md, k: v}`). -/
def setAssoc {α : Type} (l : List (String × α)) (k : String) (v : α) :
    List (String × α) :=
  if l.any (fun kv => kv.1 == k) then
    l.map (fun kv => if kv.1 = k then (k, v) else kv)
  else l ++ [(k, v)]

/-- Modelled from the spec: the tri-state lazy-load guard of the Pattern
Learner (unattempted / succeeded / failed-permanently). -/
inductive LoadState where
  | unattempted
  | loaded
  | failed
deriving DecidableEq, BEq, Repr

/-- Modelled from the spec: the mutable state of one bridge instance —
destroyed flag, learner load state, the active trajectory map (entry id ↦
trajectory id) and the stats counters (`avgConfidenceBoost` is kept as a
sum and a count of applied boost deltas). -/
structure BridgeState where
  destroyed : Bool
  learner : LoadState
  trajectories : List (String × String)
  totalTrajectories : ℕ
  completedTrajectories : ℕ
  totalConsolidations : ℕ
  totalDecays : ℕ
  boostCount : ℕ
  boostSum : ℚ
deriving DecidableEq, Repr

/-- The state of a freshly constructed bridge. -/
def initialState : BridgeState :=
  { destroyed := false
    learner := LoadState.unattempted
    trajectories := []
    totalTrajectories := 0
    completedTrajectories := 0
    totalConsolidations := 0
    totalDecays := 0
    boostCount := 0
    boostSum := 0 }

/-- Events the bridge emits to its listeners. -/
inductive Event where
  | learningStarted (entryId category : String)
  | accessed (entryId : String) (newConfidence : ℚ)
  | consolidationCompleted (trajectoriesCompleted patternsLearned durationMs : ℕ)
deriving DecidableEq, Repr

/-- Calls the bridge issues to the Pattern Learner (`load` is the lazy
module-load attempt itself). -/
inductive LearnerCall where
  | load
  | beginTask
  | recordStep
  | completeTask
  | findPatterns
  | cleanup
deriving DecidableEq, Repr

/-- Calls the bridge issues to the Storage Backend. -/
inductive BackendCall where
  | get (id : String)
  | update (id : String) (metadata : List (String × MetaVal))
  | query (ns : String)
deriving DecidableEq, Repr

/-- The observable outcome of one public bridge operation: the successor
state, the events emitted, and the learner and backend calls issued. -/
structure StepOut where
  state : BridgeState
  events : List Event
  learnerCalls : List LearnerCall
  backendCalls : List BackendCall
deriving DecidableEq, Repr

/-- Modelled from the spec: the state after the memoized learner-load guard
runs with outcome `lo` — only an `unattempted` state changes. -/
def loadAttempt (s : BridgeState) (lo : Bool) : BridgeState :=
  match s.learner with
  | LoadState.unattempted =>
      { s with learner := if lo then LoadState.loaded else LoadState.failed }
  | _ => s

/-- The learner calls the memoized load guard issues: one `load` when the
state is `unattempted`, none otherwise. -/
def loadGuardCalls (s : BridgeState) : List LearnerCall :=
  match s.learner with
  | LoadState.unattempted => [LearnerCall.load]
  | _ => []

/-- Modelled from the spec, `onInsightRecorded(insight, entryId)`: no-op if
disabled or destroyed; otherwise run the lazy load guard (outcome `lo`),
and when the learner is available begin an episode (`beginResult` is the
trajectory id obtained, `none` when `beginTask` throws) and record a
reinforcement step; the trajectory is inserted and `totalTrajectories`
incremented only when a trajectory id was obtained; the
`insight:learning-started` event is always emitted once. -/
def onInsightRecorded (cfg : LearningBridgeConfig) (s : BridgeState)
    (insight : Insight) (entryId : String) (lo : Bool)
    (beginResult : Option String) : StepOut :=
  if s.destroyed || !cfg.enabled then ⟨s, [], [], []⟩
  else
    let s1 := loadAttempt s lo
    let lc := loadGuardCalls s
    let started := Event.learningStarted entryId insight.category
    if s1.learner = LoadState.loaded then
      match beginResult with
      | some tid =>
          ⟨{ s1 with trajectories := setAssoc s1.trajectories entryId tid
                     totalTrajectories := s1.totalTrajectories + 1 },
           [started], lc ++ [LearnerCall.beginTask, LearnerCall.recordStep], []⟩
      | none => ⟨s1, [started], lc ++ [LearnerCall.beginTask], []⟩
    else ⟨s1, [started], lc, []⟩

/-- Modelled from the spec, `onInsightAccessed(entryId)`: no-op if disabled
or destroyed; fetch the entry (`getResult` is what the backend returns); a
missing entry is a no-op (no update, no event); otherwise boost the
confidence (default 0.5), write back an update preserving other metadata
keys, emit `insight:accessed`, record an `access` reinforcement step when an
active trajectory exists and the learner is available, and fold the applied
delta into the running boost statistic. -/
def onInsightAccessed (cfg : LearningBridgeConfig) (s : BridgeState)
    (entryId : String) (lo : Bool) (getResult : Option Entry) : StepOut :=
  if s.destroyed || !cfg.enabled then ⟨s, [], [], []⟩
  else
    let s1 := loadAttempt s lo
    let lc := loadGuardCalls s
    match getResult with
    | none => ⟨s1, [], lc, [BackendCall.get entryId]⟩
    | some e =>
        let current := metaConfidence e.metadata
        let newConf := boost cfg current
        let delta := newConf - current.getD (1/2)
        let newMeta := setAssoc e.metadata "confidence" (MetaVal.num newConf)
        let stepCalls :=
          if (s1.trajectories.lookup entryId).isSome = true ∧ s1.learner = LoadState.loaded
          then [LearnerCall.recordStep] else []
        ⟨{ s1 with boostCount := s1.boostCount + 1, boostSum := s1.boostSum + delta },
         [Event.accessed entryId newConf],
         lc ++ stepCalls,
         [BackendCall.get entryId, BackendCall.update entryId newMeta]⟩

/-- Hours elapsed since an entry's `updatedAt`, as an exact rational. -/
def hoursElapsed (now : ℤ) (e : Entry) : ℚ :=
  ((now - e.updatedAt : ℤ) : ℚ) / 3600000

/-- Modelled from the spec, the per-entry decision of the decay sweep: when
at least one hour has elapsed, the decayed confidence to write for this
entry; otherwise `none` (entry skipped, no write). -/
def decayEntry (cfg : LearningBridgeConfig) (now : ℤ) (e : Entry) :
    Option (Entry × ℚ) :=
  if 1 ≤ hoursElapsed now e then
    some (e, decayConf cfg ((metaConfidence e.metadata).getD (1/2)) (hoursElapsed now e))
  else none

/-- Modelled from the spec, `decayConfidences(namespace)`: returns 0 if
disabled or destroyed; queries the backend (`queryResult` is the result,
`none` when the query throws — caught, yields 0); decays every entry at
least one hour stale, writing back metadata-preserving updates; returns the
count of entries updated and adds it to `totalDecays`. -/
def decayConfidences (cfg : LearningBridgeConfig) (s : BridgeState)
    (ns : String) (now : ℤ) (queryResult : Option (List Entry)) :
    StepOut × ℕ :=
  if s.destroyed || !cfg.enabled then (⟨s, [], [], []⟩, 0)
  else
    match queryResult with
    | none => (⟨s, [], [], [BackendCall.query ns]⟩, 0)
    | some entries =>
        let updates := entries.filterMap (decayEntry cfg now)
        let count := updates.length
        (⟨{ s with totalDecays := s.totalDecays + count }, [], [],
          BackendCall.query ns ::
            updates.map (fun u =>
              BackendCall.update u.1.id
                (setAssoc u.1.metadata "confidence" (MetaVal.num u.2)))⟩,
         count)

/-- The result record of a consolidation pass. -/
structure ConsolidateResult where
  trajectoriesCompleted : ℕ
  patternsLearned : ℕ
  durationMs : ℕ
deriving DecidableEq, Repr

/-- Modelled from the spec, `consolidate()`: a zeroed result if disabled,
destroyed, the learner is unavailable, or `activeTrajectories` is below
`consolidationThreshold`; otherwise every active trajectory gets an
episode-completion call (`completeOk i` tells whether the `i`-th completion
succeeds — a throw is caught and merely excluded from the success count),
all trajectories are cleared, stats are updated and
`consolidation:completed` is emitted. -/
def consolidate (cfg : LearningBridgeConfig) (s : BridgeState) (lo : Bool)
    (completeOk : ℕ → Bool) (durationMs : ℕ) : StepOut × ConsolidateResult :=
  if s.destroyed || !cfg.enabled then (⟨s, [], [], []⟩, ⟨0, 0, 0⟩)
  else
    let s1 := loadAttempt s lo
    let lc := loadGuardCalls s
    if s1.learner = LoadState.loaded then
      if s1.trajectories.length < cfg.consolidationThreshold then
        (⟨s1, [], lc, []⟩, ⟨0, 0, 0⟩)
      else
        let n := s1.trajectories.length
        let successes := ((List.range n).filter completeOk).length
        let result : ConsolidateResult := ⟨successes, successes, durationMs⟩
        (⟨{ s1 with trajectories := []
                    completedTrajectories := s1.completedTrajectories + successes
                    totalConsolidations := s1.totalConsolidations + 1 },
          [Event.consolidationCompleted successes successes durationMs],
          lc ++ List.replicate n LearnerCall.completeTask, []⟩,
         result)
    else (⟨s1, [], lc, []⟩, ⟨0, 0, 0⟩)

/-- A learner pattern-search result record of arbitrary shape: either
`{content, similarity, category, confidence}` or `{data, score, reward}`
fields may be present. -/
structure RawPattern where
  content : Option String := none
  similarity : Option ℚ := none
  category : Option String := none
  confidence : Option ℚ := none
  data : Option String := none
  score : Option ℚ := none
  reward : Option ℚ := none
deriving DecidableEq, Repr

/-- A normalized pattern-match record. -/
structure PatternMatch where
  content : String
  similarity : ℚ
  category : String
  confidence : ℚ
deriving DecidableEq, Repr

/-- Modelled from the spec: normalize an arbitrary learner result record
into `{content, similarity, category, confidence}`, defaulting `category`
to `"unknown"` when absent and falling back to the `{data, score, reward}`
shape. -/
def normalizePattern (r : RawPattern) : PatternMatch :=
  { content := r.content.getD (r.data.getD "")
    similarity := r.similarity.getD (r.score.getD 0)
    category := r.category.getD "unknown"
    confidence := r.confidence.getD (r.reward.getD 0) }

/-- Modelled from the spec, `findSimilarPatterns(query, k)`: an empty
sequence if disabled, destroyed, or the learner is unavailable or fails to
load; otherwise call the learner's pattern search (`findResult` is its
result, `none` when it throws or returns a non-array — yielding an empty
sequence) and normalize each record. -/
def findSimilarPatterns (cfg : LearningBridgeConfig) (s : BridgeState)
    (query : String) (k : ℕ) (lo : Bool)
    (findResult : Option (List RawPattern)) : StepOut × List PatternMatch :=
  if s.destroyed || !cfg.enabled then (⟨s, [], [], []⟩, [])
  else
    let s1 := loadAttempt s lo
    let lc := loadGuardCalls s
    if s1.learner = LoadState.loaded then
      match findResult with
      | none => (⟨s1, [], lc ++ [LearnerCall.findPatterns], []⟩, [])
      | some rs =>
          (⟨s1, [], lc ++ [LearnerCall.findPatterns], []⟩, rs.map normalizePattern)
    else (⟨s1, [], lc, []⟩, [])

/-- Modelled from the spec, `destroy()`: no-op when already destroyed;
otherwise clears the trajectory map, invokes the learner's cleanup hook when
a learner was successfully loaded, and flips the destroyed flag.  All stats
counters are left at their pre-destroy values. -/
def destroy (s : BridgeState) : StepOut :=
  if s.destroyed then ⟨s, [], [], []⟩
  else
    ⟨{ s with destroyed := true, trajectories := [] }, [],
     if s.learner = LoadState.loaded then [LearnerCall.cleanup] else [], []⟩

/-- The stats record returned by `getStats()`. -/
structure LearningStats where
  totalTrajectories : ℕ
  completedTrajectories : ℕ
  activeTrajectories : ℕ
  totalConsolidations : ℕ
  totalDecays : ℕ
  avgConfidenceBoost : ℚ
  neuralAvailable : Bool
deriving DecidableEq, Repr

/-- Modelled from the spec, `getStats()`: the counters, the active
trajectory gauge, the running mean of applied boost deltas, and whether the
learner is loaded. -/
def getStats (s : BridgeState) : LearningStats :=
  { totalTrajectories := s.totalTrajectories
    completedTrajectories := s.completedTrajectories
    activeTrajectories := s.trajectories.length
    totalConsolidations := s.totalConsolidations
    totalDecays := s.totalDecays
    avgConfidenceBoost :=
      if s.boostCount = 0 then 0 else s.boostSum / (s.boostCount : ℚ)
    neuralAvailable := decide (s.learner = LoadState.loaded) }

/-- One public operation on the bridge, together with the oracle outcomes of
the external calls it may make. -/
inductive Op where
  | record (insight : Insight) (entryId : String) (lo : Bool)
      (beginResult : Option String)
  | access (entryId : String) (lo : Bool) (getResult : Option Entry)
  | consolidateOp (lo : Bool) (completeOk : ℕ → Bool) (durationMs : ℕ)
  | decayOp (ns : String) (now : ℤ) (queryResult : Option (List Entry))
  | findOp (query : String) (k : ℕ) (lo : Bool)
      (findResult : Option (List RawPattern))
  | destroyOp

/-- Run one public operation. -/
def step (cfg : LearningBridgeConfig) (s : BridgeState) : Op → StepOut
  | Op.record i eid lo br => onInsightRecorded cfg s i eid lo br
  | Op.access eid lo g => onInsightAccessed cfg s eid lo g
  | Op.consolidateOp lo ck d => (consolidate cfg s lo ck d).1
  | Op.decayOp ns now q => (decayConfidences cfg s ns now q).1
  | Op.findOp q k lo f => (findSimilarPatterns cfg s q k lo f).1
  | Op.destroyOp => destroy s

/-- Run a sequence of public operations, collecting the learner calls. -/
def run (cfg : LearningBridgeConfig) (s : BridgeState) :
    List Op → BridgeState × List LearnerCall
  | [] => (s, [])
  | op :: ops =>
      let out := step cfg s op
      let rest := run cfg out.state ops
      (rest.1, out.learnerCalls ++ rest.2)

/-! ## Helper lemmas -/

theorem lookup_map_overwrite_ne {α : Type} (l : List (String × α)) (k k' : String)
    (v : α) (h : k ≠ k') :
    (l.map (fun kv => if kv.1 = k' then (k', v) else kv)).lookup k = l.lookup k := by
  induction l with
  | nil => rfl
  | cons hd tl ih =>
      obtain ⟨a, b⟩ := hd
      by_cases hh : a = k'
      · subst hh
        have h2 : (k == a) = false := beq_eq_false_iff_ne.mpr h
        have hmap : List.map (fun kv => if kv.1 = a then (a, v) else kv) ((a, b) :: tl)
            = (a, v) :: List.map (fun kv => if kv.1 = a then (a, v) else kv) tl := by simp
        rw [hmap]
        simp only [List.lookup, h2, ih]
      · have hmap : List.map (fun kv => if kv.1 = k' then (k', v) else kv) ((a, b) :: tl)
            = (a, b) :: List.map (fun kv => if kv.1 = k' then (k', v) else kv) tl := by
          simp [hh]
        rw [hmap]
        cases hka : k == a <;> simp only [List.lookup, hka, ih]

theorem lookup_append_single_ne {α : Type} (l : List (String × α)) (k k' : String)
    (v : α) (h : k ≠ k') :
    (l ++ [(k', v)]).lookup k = l.lookup k := by
  induction l with
  | nil =>
      have h2 : (k == k') = false := beq_eq_false_iff_ne.mpr h
      simp [List.lookup, h2]
  | cons hd tl ih =>
      obtain ⟨a, b⟩ := hd
      cases hka : k == a <;> simp [List.lookup, hka, ih]

theorem lookup_setAssoc_ne {α : Type} (l : List (String × α)) (k k' : String)
    (v : α) (h : k ≠ k') :
    (setAssoc l k' v).lookup k = l.lookup k := by
  unfold setAssoc
  by_cases hany : (l.any fun kv => kv.1 == k') = true
  · rw [if_pos hany]
    exact lookup_map_overwrite_ne l k k' v h
  · rw [if_neg hany]
    exact lookup_append_single_ne l k k' v h

theorem lookup_map_overwrite_self {α : Type} (l : List (String × α)) (k : String)
    (v : α) (h : l.any (fun kv => kv.1 == k) = true) :
    (l.map (fun kv => if kv.1 = k then (k, v) else kv)).lookup k = some v := by
  induction l with
  | nil => simp at h
  | cons hd tl ih =>
      obtain ⟨a, b⟩ := hd
      by_cases hh : a = k
      · subst hh
        have h1 : (a == a) = true := beq_self_eq_true a
        have hmap : List.map (fun kv => if kv.1 = a then (a, v) else kv) ((a, b) :: tl)
            = (a, v) :: List.map (fun kv => if kv.1 = a then (a, v) else kv) tl := by simp
        rw [hmap]
        simp only [List.lookup, h1]
      · have h2 : (k == a) = false := beq_eq_false_iff_ne.mpr (fun hk => hh hk.symm)
        have hmap : List.map (fun kv => if kv.1 = k then (k, v) else kv) ((a, b) :: tl)
            = (a, b) :: List.map (fun kv => if kv.1 = k then (k, v) else kv) tl := by
          simp [hh]
        simp only [List.any_cons, Bool.or_eq_true, beq_iff_eq] at h
        rcases h with h | h
        · exact absurd h hh
        · rw [hmap]
          simp only [List.lookup, h2, ih h]

theorem lookup_append_single_self {α : Type} (l : List (String × α)) (k : String)
    (v : α) (h : l.any (fun kv => kv.1 == k) = false) :
    (l ++ [(k, v)]).lookup k = some v := by
  induction l with
  | nil =>
      have h1 : (k == k) = true := beq_self_eq_true k
      simp [List.lookup, h1]
  | cons hd tl ih =>
      obtain ⟨a, b⟩ := hd
      simp only [List.any_cons, Bool.or_eq_false_iff, beq_eq_false_iff_ne, ne_eq] at h
      have hk : (k == a) = false := beq_eq_false_iff_ne.mpr (fun hk => h.1 hk.symm)
      simp [List.lookup, hk, ih h.2]

theorem lookup_setAssoc_self {α : Type} (l : List (String × α)) (k : String) (v : α) :
    (setAssoc l k v).lookup k = some v := by
  unfold setAssoc
  by_cases hany : (l.any fun kv => kv.1 == k) = true
  · rw [if_pos hany]
    exact lookup_map_overwrite_self l k v hany
  · rw [if_neg hany]
    exact lookup_append_single_self l k v (Bool.eq_false_iff.mpr hany)

/-- Budget of learner-load attempts still possible from state `s`. -/
def loadBound (s : BridgeState) : ℕ :=
  if s.learner = LoadState.unattempted then 1 else 0

theorem loadGuard_accounting (s : BridgeState) (lo : Bool) :
    (loadGuardCalls s).count LearnerCall.load + loadBound (loadAttempt s lo) =
      loadBound s := by
  unfold loadGuardCalls loadAttempt loadBound
  cases h : s.learner with
  | unattempted => cases lo <;> simp [h]
  | loaded => simp [h]
  | failed => simp [h]

theorem loadAttempt_learner_ne (s : BridgeState) (lo : Bool)
    (h : s.learner ≠ LoadState.unattempted) : loadAttempt s lo = s := by
  unfold loadAttempt
  cases hs : s.learner with
  | unattempted => exact absurd hs h
  | loaded => rfl
  | failed => rfl

@[simp]
theorem count_load_replicate (n : ℕ) :
    (List.replicate n LearnerCall.completeTask).count LearnerCall.load = 0 := by
  refine List.count_eq_zero.mpr (fun h => ?_)
  have := List.eq_of_mem_replicate h
  exact absurd this (by simp)

theorem step_load_bound (cfg : LearningBridgeConfig) (s : BridgeState) (op : Op) :
    ((step cfg s op).learnerCalls).count LearnerCall.load
      + loadBound (step cfg s op).state ≤ loadBound s := by
  cases op with
  | record i eid lo br =>
      cases hl : s.learner <;> cases lo <;> cases br <;>
        simp [step, onInsightRecorded, loadAttempt, loadGuardCalls, loadBound, hl,
          List.count_append, List.count_cons, List.count_nil]
      all_goals try split
      all_goals simp_all [loadBound]
  | access eid lo g =>
      cases hl : s.learner <;> cases lo <;> cases g <;>
        simp [step, onInsightAccessed, loadAttempt, loadGuardCalls, loadBound, hl,
          List.count_append, List.count_cons, List.count_nil]
      all_goals try split
      all_goals simp_all [loadBound]
      all_goals try split
      all_goals simp_all [loadBound]
  | consolidateOp lo ck d =>
      cases hl : s.learner <;> cases lo <;>
        simp [step, consolidate, loadAttempt, loadGuardCalls, loadBound, hl,
          List.count_append, List.count_cons, List.count_nil]
      all_goals try split
      all_goals simp_all [loadBound]
      all_goals try split
      all_goals simp_all [loadBound]
  | decayOp ns now q =>
      cases hl : s.learner <;> cases q <;>
        simp [step, decayConfidences, loadBound, hl]
      all_goals try split
      all_goals simp_all [loadBound]
  | findOp q k lo f =>
      cases hl : s.learner <;> cases lo <;> cases f <;>
        simp [step, findSimilarPatterns, loadAttempt, loadGuardCalls, loadBound, hl,
          List.count_append, List.count_cons, List.count_nil]
      all_goals try split
      all_goals simp_all [loadBound]
  | destroyOp =>
      cases hl : s.learner <;>
        simp [step, destroy, loadBound, hl, List.count_cons, List.count_nil]
      all_goals try split
      all_goals simp_all [loadBound]

theorem run_load_bound (cfg : LearningBridgeConfig) (ops : List Op) (s : BridgeState) :
    ((run cfg s ops).2).count LearnerCall.load + loadBound (run cfg s ops).1
      ≤ loadBound s := by
  induction ops generalizing s with
  | nil => simp [run]
  | cons op ops ih =>
      simp only [run, List.count_append]
      have h1 := step_load_bound cfg s op
      have h2 := ih (step cfg s op).state
      omega

theorem step_preserves_failed (cfg : LearningBridgeConfig) (s : BridgeState) (op : Op)
    (h : s.learner = LoadState.failed) :
    (step cfg s op).state.learner = LoadState.failed := by
  cases op with
  | record i eid lo br =>
      cases br <;>
        simp [step, onInsightRecorded, loadAttempt, h] <;> split <;> simp [h] <;>
        split <;> simp [h]
  | access eid lo g =>
      cases g <;>
        simp [step, onInsightAccessed, loadAttempt, h] <;> split <;> simp [h]
  | consolidateOp lo ck d =>
      simp [step, consolidate, loadAttempt, h] <;> split <;> simp [h] <;>
        split <;> simp [h]
  | decayOp ns now q =>
      cases q <;> simp [step, decayConfidences, h] <;> split <;> simp [h]
  | findOp q k lo f =>
      cases f <;>
        simp [step, findSimilarPatterns, loadAttempt, h] <;> split <;> simp [h]
  | destroyOp =>
      simp [step, destroy, h] <;> split <;> simp [h]

theorem run_preserves_failed (cfg : LearningBridgeConfig) (ops : List Op)
    (s : BridgeState) (h : s.learner = LoadState.failed) :
    (run cfg s ops).1.learner = LoadState.failed := by
  induction ops generalizing s with
  | nil => simpa [run] using h
  | cons op ops ih =>
      simp only [run]
      exact ih (step cfg s op).state (step_preserves_failed cfg s op h)

/-- Every public operation on a destroyed bridge is an identity no-op with
no events, no learner calls and no backend calls. -/
theorem step_destroyed (cfg : LearningBridgeConfig) (s : BridgeState) (op : Op)
    (h : s.destroyed = true) : step cfg s op = ⟨s, [], [], []⟩ := by
  cases op <;>
    simp [step, onInsightRecorded, onInsightAccessed, consolidate,
      decayConfidences, findSimilarPatterns, destroy, h]

/-! ## Concrete fixtures for the spec's worked examples -/

def entryHalf : Entry := ⟨"entry-1", [("confidence", MetaVal.num (1/2))], 0⟩

def entryHigh : Entry := ⟨"entry-1", [("confidence", MetaVal.num (99/100))], 0⟩

def entryExtra : Entry :=
  ⟨"entry-1",
   [("confidence", MetaVal.num (3/5)), ("category", MetaVal.str "debugging"),
    ("extra", MetaVal.str "preserved")], 0⟩

def entryStale : Entry := ⟨"old-entry", [("confidence", MetaVal.num (9/10))], 0⟩

def entryRecent : Entry := ⟨"recent-entry", [("confidence", MetaVal.num (4/5))], 5400000⟩

/-- Ten insight-recording operations on distinct entry ids, each obtaining a
distinct trajectory id from the learner. -/
def ops10 : List Op :=
  [("e0", "t0"), ("e1", "t1"), ("e2", "t2"), ("e3", "t3"), ("e4", "t4"),
   ("e5", "t5"), ("e6", "t6"), ("e7", "t7"), ("e8", "t8"), ("e9", "t9")].map
    (fun p => Op.record ⟨"debugging", p.1, "agent:tester", 95/100⟩ p.1 true (some p.2))

/-- The bridge state after recording the ten insights of `ops10`. -/
def sTen : BridgeState := (run defaultConfig initialState ops10).1

/-! ## Claim theorems -/

/-- C1: for every entry accessed via `onInsightAccessed`, the confidence the
bridge writes back equals `clamp(current + accessBoostAmount, minConfidence,
maxConfidence)`, where `current` defaults to 0.5 when `metadata.confidence`
is absent; with the default configuration an entry at 0.5 is written back
as 0.53, and one at 0.99 is boosted to a value ≤ 1.0. -/
theorem access_boost_clamped :
    (∀ (cfg : LearningBridgeConfig) (s : BridgeState) (entryId : String)
        (lo : Bool) (e : Entry),
      s.destroyed = false → cfg.enabled = true →
      (onInsightAccessed cfg s entryId lo (some e)).backendCalls =
        [BackendCall.get entryId,
         BackendCall.update entryId
           (setAssoc e.metadata "confidence"
             (MetaVal.num (clamp cfg.minConfidence cfg.maxConfidence
               ((metaConfidence e.metadata).getD (1/2) + cfg.accessBoostAmount))))])
    ∧ (onInsightAccessed defaultConfig initialState "entry-1" true
          (some entryHalf)).backendCalls =
        [BackendCall.get "entry-1",
         BackendCall.update "entry-1" [("confidence", MetaVal.num (53/100))]]
    ∧ boost defaultConfig none = 53/100
    ∧ boost defaultConfig (some (99/100)) ≤ 1 := by
  refine ⟨?_, ?_, ?_, ?_⟩
  · intro cfg s entryId lo e h1 h2
    simp [onInsightAccessed, h1, h2, boost]
  · norm_num [onInsightAccessed, boost, clamp, metaConfidence, setAssoc, entryHalf,
      initialState, defaultConfig, loadAttempt, loadGuardCalls, List.lookup]
  · norm_num [boost, clamp, defaultConfig]
  · norm_num [boost, clamp, defaultConfig]

theorem access_boost_clamped_witness :
    (onInsightAccessed defaultConfig initialState "entry-1" true
        (some entryHalf)).backendCalls =
      [BackendCall.get "entry-1",
       BackendCall.update "entry-1"
         (setAssoc entryHalf.metadata "confidence"
           (MetaVal.num (clamp defaultConfig.minConfidence defaultConfig.maxConfidence
             ((metaConfidence entryHalf.metadata).getD (1/2)
               + defaultConfig.accessBoostAmount))))] :=
  access_boost_clamped.1 defaultConfig initialState "entry-1" true entryHalf rfl rfl

@[simp]
theorem defaultConfig_enabled : defaultConfig.enabled = true := rfl

@[simp]
theorem initialState_destroyed : initialState.destroyed = false := rfl

@[simp]
theorem entryStale_id : entryStale.id = "old-entry" := rfl

@[simp]
theorem entryStale_md : entryStale.metadata = [("confidence", MetaVal.num (9/10))] := rfl

theorem decayEntry_stale_value :
    decayEntry defaultConfig 7200000 entryStale = some (entryStale, 89/100) := by
  unfold decayEntry
  rw [if_pos (by norm_num [hoursElapsed, entryStale])]
  norm_num [decayConf, clamp, metaConfidence, entryStale, defaultConfig, hoursElapsed,
    List.lookup]

theorem decayEntry_recent_value :
    decayEntry defaultConfig 7200000 entryRecent = none := by
  unfold decayEntry
  rw [if_neg]
  norm_num [hoursElapsed, entryRecent]

/-- C2: for every entry of the namespace handed to `decayConfidences`, an
entry at least one hour stale gets a backend write of confidence
`clamp(current − decayRate × hoursElapsed, minConfidence, maxConfidence)`
(so 0.9 after exactly 2 hours becomes 0.89 at the default rate 0.005),
while an entry updated less than one hour ago receives no backend write at
all. -/
theorem decay_sweep_clamped_and_skips_recent :
    (∀ (cfg : LearningBridgeConfig) (s : BridgeState) (ns : String) (now : ℤ)
        (entries : List Entry) (e : Entry),
      s.destroyed = false → cfg.enabled = true → e ∈ entries →
      1 ≤ hoursElapsed now e →
      BackendCall.update e.id
          (setAssoc e.metadata "confidence"
            (MetaVal.num (clamp cfg.minConfidence cfg.maxConfidence
              ((metaConfidence e.metadata).getD (1/2)
                - cfg.confidenceDecayRate * hoursElapsed now e))))
        ∈ (decayConfidences cfg s ns now (some entries)).1.backendCalls)
    ∧ (∀ (cfg : LearningBridgeConfig) (s : BridgeState) (ns : String) (now : ℤ)
        (entries : List Entry) (e : Entry),
      e ∈ entries → hoursElapsed now e < 1 →
      (∀ e' ∈ entries, e'.id = e.id → e' = e) →
      ∀ md, BackendCall.update e.id md ∉
        (decayConfidences cfg s ns now (some entries)).1.backendCalls)
    ∧ (decayConfidences defaultConfig initialState "learnings" 7200000
          (some [entryStale])).1.backendCalls =
        [BackendCall.query "learnings",
         BackendCall.update "old-entry" [("confidence", MetaVal.num (89/100))]]
    ∧ (decayConfidences defaultConfig initialState "learnings" 7200000
          (some [entryStale])).2 = 1
    ∧ (decayConfidences defaultConfig initialState "learnings" 7200000
          (some [entryRecent])).1.backendCalls = [BackendCall.query "learnings"]
    ∧ (decayConfidences defaultConfig initialState "learnings" 7200000
          (some [entryRecent])).2 = 0 := by
  refine ⟨?_, ?_, ?_, ?_, ?_, ?_⟩
  · intro cfg s ns now entries e h1 h2 he hh
    simp only [decayConfidences, h1, h2, Bool.not_true, Bool.or_false, if_false,
      Bool.false_or]
    refine List.mem_cons_of_mem _ (List.mem_map.mpr
      ⟨(e, decayConf cfg ((metaConfidence e.metadata).getD (1/2)) (hoursElapsed now e)),
       ?_, ?_⟩)
    · exact List.mem_filterMap.mpr ⟨e, he, by simp [decayEntry, hh]⟩
    · simp [decayConf]
  · intro cfg s ns now entries e he hh huniq md hmem
    cases hd : s.destroyed <;> cases hen : cfg.enabled <;>
      simp [decayConfidences, hd, hen] at hmem
    obtain ⟨a, q, hu, hid, hmd⟩ := hmem
    obtain ⟨b, hb, hdb⟩ := hu
    by_cases hca : 1 ≤ hoursElapsed now b
    · unfold decayEntry at hdb
      rw [if_pos hca] at hdb
      have hba : b = a := by
        have := Option.some_inj.mp hdb
        exact congrArg Prod.fst this
      subst hba
      have hbe : b = e := huniq b hb hid
      subst hbe
      exact absurd hca (not_le.mpr hh)
    · unfold decayEntry at hdb
      rw [if_neg hca] at hdb
      exact Option.noConfusion hdb
  · simp [decayConfidences, decayEntry_stale_value, List.filterMap_cons, setAssoc]
  · simp [decayConfidences, decayEntry_stale_value, List.filterMap_cons]
  · simp [decayConfidences, decayEntry_recent_value, List.filterMap_cons]
  · simp [decayConfidences, decayEntry_recent_value, List.filterMap_cons]

theorem decay_sweep_witness :
    (1 : ℚ) ≤ hoursElapsed 7200000 entryStale ∧
    BackendCall.update entryStale.id
        (setAssoc entryStale.metadata "confidence"
          (MetaVal.num (clamp defaultConfig.minConfidence defaultConfig.maxConfidence
            ((metaConfidence entryStale.metadata).getD (1/2)
              - defaultConfig.confidenceDecayRate * hoursElapsed 7200000 entryStale))))
      ∈ (decayConfidences defaultConfig initialState "learnings" 7200000
          (some [entryStale])).1.backendCalls :=
  ⟨by norm_num [hoursElapsed, entryStale],
   decay_sweep_clamped_and_skips_recent.1 defaultConfig initialState "learnings" 7200000
     [entryStale] entryStale rfl rfl (by simp)
     (by norm_num [hoursElapsed, entryStale])⟩

/-- C3: `consolidate()` returns a zeroed result and issues no learner
episode-completion calls whenever the active trajectory count is below
`consolidationThreshold`; after recording 10 insights (each obtaining a
trajectory) with the default threshold 10, `consolidate()` reports
`trajectoriesCompleted = patternsLearned = 10` and leaves
`activeTrajectories` at 0. -/
theorem consolidate_threshold_gate :
    (∀ (cfg : LearningBridgeConfig) (s : BridgeState) (lo : Bool)
        (ck : ℕ → Bool) (d : ℕ),
      (getStats s).activeTrajectories < cfg.consolidationThreshold →
      (consolidate cfg s lo ck d).2 = ⟨0, 0, 0⟩ ∧
      ((consolidate cfg s lo ck d).1.learnerCalls).count LearnerCall.completeTask = 0)
    ∧ (consolidate defaultConfig sTen true (fun _ => true) 0).2 = ⟨10, 10, 0⟩
    ∧ (getStats (consolidate defaultConfig sTen true
        (fun _ => true) 0).1.state).activeTrajectories = 0 := by
  refine ⟨?_, ?_, ?_⟩
  · intro cfg s lo ck d h
    simp only [getStats] at h
    cases hd : s.destroyed <;> cases hen : cfg.enabled <;>
      cases hl : s.learner <;> cases lo <;>
      simp [consolidate, loadAttempt, loadGuardCalls, hd, hen, hl, h,
        List.count_cons, List.count_nil]
  · decide
  · decide

theorem consolidate_threshold_gate_witness :
    (consolidate defaultConfig initialState true (fun _ => true) 0).2 = ⟨0, 0, 0⟩ ∧
    ((consolidate defaultConfig initialState true
        (fun _ => true) 0).1.learnerCalls).count LearnerCall.completeTask = 0 :=
  consolidate_threshold_gate.1 defaultConfig initialState true (fun _ => true) 0
    (by decide)

/-- C4: in a consolidation pass over `n` active trajectories (threshold met,
learner loaded), a throwing episode-completion call aborts nothing: every
trajectory still gets its completion call, the success count is the number
of non-throwing completions, and all `n` trajectories are cleared; with the
3rd of 10 completions throwing, `consolidate()` reports
`trajectoriesCompleted = 9`. -/
theorem consolidate_fault_tolerant :
    (∀ (cfg : LearningBridgeConfig) (s : BridgeState) (lo : Bool)
        (ck : ℕ → Bool) (d : ℕ),
      s.destroyed = false → cfg.enabled = true → s.learner = LoadState.loaded →
      cfg.consolidationThreshold ≤ s.trajectories.length →
      (consolidate cfg s lo ck d).2.trajectoriesCompleted =
          ((List.range s.trajectories.length).filter ck).length
        ∧ (consolidate cfg s lo ck d).2.patternsLearned =
          ((List.range s.trajectories.length).filter ck).length
        ∧ (consolidate cfg s lo ck d).1.state.trajectories = []
        ∧ ((consolidate cfg s lo ck d).1.learnerCalls).count LearnerCall.completeTask =
            s.trajectories.length)
    ∧ (consolidate defaultConfig sTen true
        (fun i => decide (i ≠ 2)) 0).2.trajectoriesCompleted = 9 := by
  constructor
  · intro cfg s lo ck d hd hen hl hth
    have hs1 : loadAttempt s lo = s := loadAttempt_learner_ne s lo (by simp [hl])
    simp [consolidate, hd, hen, hs1, hl, loadGuardCalls, not_lt.mpr hth,
      List.count_append]
  · decide

theorem consolidate_fault_tolerant_witness :
    (consolidate defaultConfig sTen true (fun i => decide (i ≠ 2)) 0).2.trajectoriesCompleted =
        ((List.range sTen.trajectories.length).filter (fun i => decide (i ≠ 2))).length
      ∧ (consolidate defaultConfig sTen true
          (fun i => decide (i ≠ 2)) 0).1.state.trajectories = [] :=
  ⟨(consolidate_fault_tolerant.1 defaultConfig sTen true
      (fun i => decide (i ≠ 2)) 0 (by decide) rfl (by decide) (by decide)).1,
   (consolidate_fault_tolerant.1 defaultConfig sTen true
      (fun i => decide (i ≠ 2)) 0 (by decide) rfl (by decide) (by decide)).2.2.1⟩

/-- C5: public bridge methods fail open (every method is total in this model
and returns its zero/empty default under each failure condition): a backend
query failure makes `decayConfidences` return 0 with no update write and no
state change; a learner pattern-search throw / non-array result, and a
learner load failure, make `findSimilarPatterns` return the empty sequence;
a missing entry makes `onInsightAccessed` perform no update and emit no
event. -/
theorem public_methods_fail_open :
    (∀ (cfg : LearningBridgeConfig) (s : BridgeState) (ns : String) (now : ℤ),
      (decayConfidences cfg s ns now none).2 = 0
        ∧ (decayConfidences cfg s ns now none).1.state = s
        ∧ ∀ (id : String) (md : List (String × MetaVal)),
            BackendCall.update id md ∉ (decayConfidences cfg s ns now none).1.backendCalls)
    ∧ (∀ (cfg : LearningBridgeConfig) (s : BridgeState) (q : String) (k : ℕ) (lo : Bool),
      (findSimilarPatterns cfg s q k lo none).2 = [])
    ∧ (∀ (cfg : LearningBridgeConfig) (s : BridgeState) (q : String) (k : ℕ)
        (fr : Option (List RawPattern)),
      s.learner ≠ LoadState.loaded → (findSimilarPatterns cfg s q k false fr).2 = [])
    ∧ (∀ (cfg : LearningBridgeConfig) (s : BridgeState) (entryId : String) (lo : Bool),
      (onInsightAccessed cfg s entryId lo none).events = []
        ∧ ∀ (id : String) (md : List (String × MetaVal)),
            BackendCall.update id md ∉ (onInsightAccessed cfg s entryId lo none).backendCalls) := by
  refine ⟨?_, ?_, ?_, ?_⟩
  · intro cfg s ns now
    cases hd : s.destroyed <;> cases hen : cfg.enabled <;>
      simp [decayConfidences, hd, hen]
  · intro cfg s q k lo
    cases hd : s.destroyed <;> cases hen : cfg.enabled <;>
      simp [findSimilarPatterns, hd, hen] <;> split <;> simp
  · intro cfg s q k fr h
    cases hd : s.destroyed <;> cases hen : cfg.enabled <;>
      cases hl : s.learner <;>
      simp [findSimilarPatterns, loadAttempt, hd, hen, hl] <;> simp [hl] at h
  · intro cfg s entryId lo
    cases hd : s.destroyed <;> cases hen : cfg.enabled <;>
      simp [onInsightAccessed, hd, hen]

theorem public_methods_fail_open_witness :
    initialState.learner ≠ LoadState.loaded ∧
    (findSimilarPatterns defaultConfig initialState "query" 5 false
      (some [{ data := some "Raw", score := some (17/20), reward := some (7/10) }])).2 = [] :=
  ⟨by decide,
   public_methods_fail_open.2.2.1 defaultConfig initialState "query" 5
     (some [{ data := some "Raw", score := some (17/20), reward := some (7/10) }])
     (by decide)⟩

/-- C6: `destroy()` is terminal: it flips the destroyed flag, clears the
trajectory map (so `activeTrajectories = 0`) while every other stats field
keeps its pre-destroy value, and afterwards every public operation is an
idempotent no-op that emits no event and performs no backend or learner
call. -/
theorem destroy_terminal_noop :
    ∀ (cfg : LearningBridgeConfig) (s : BridgeState) (op : Op),
      s.destroyed = false →
      (destroy s).state.destroyed = true
        ∧ (destroy s).state.trajectories = []
        ∧ getStats (destroy s).state = { getStats s with activeTrajectories := 0 }
        ∧ step cfg (destroy s).state op = ⟨(destroy s).state, [], [], []⟩ := by
  intro cfg s op h
  refine ⟨?_, ?_, ?_, ?_⟩
  · simp [destroy, h]
  · simp [destroy, h]
  · simp [destroy, h, getStats]
  · exact step_destroyed cfg _ op (by simp [destroy, h])

theorem destroy_terminal_noop_witness :
    (destroy initialState).state.destroyed = true
      ∧ step defaultConfig (destroy initialState).state Op.destroyOp =
          ⟨(destroy initialState).state, [], [], []⟩ :=
  ⟨(destroy_terminal_noop defaultConfig initialState Op.destroyOp rfl).1,
   (destroy_terminal_noop defaultConfig initialState Op.destroyOp rfl).2.2.2⟩

/-- C7: across any sequence of public operations on one bridge instance the
Pattern Learner load is attempted at most once; once a load has failed the
failure is cached (`neuralAvailable = false` forever, no further load
calls), while every operation still runs in backend-only mode (all
operations are total functions of the state). -/
theorem learner_load_memoized :
    (∀ (cfg : LearningBridgeConfig) (ops : List Op),
      ((run cfg initialState ops).2).count LearnerCall.load ≤ 1)
    ∧ (∀ (cfg : LearningBridgeConfig) (ops : List Op) (s : BridgeState),
      s.learner = LoadState.failed →
      (run cfg s ops).1.learner = LoadState.failed
        ∧ ((run cfg s ops).2).count LearnerCall.load = 0
        ∧ (getStats (run cfg s ops).1).neuralAvailable = false) := by
  constructor
  · intro cfg ops
    have h := run_load_bound cfg ops initialState
    have hb : loadBound initialState = 1 := rfl
    omega
  · intro cfg ops s h
    have h1 := run_preserves_failed cfg ops s h
    have h2 := run_load_bound cfg ops s
    have hb : loadBound s = 0 := by simp [loadBound, h]
    refine ⟨h1, by omega, ?_⟩
    simp [getStats, h1]

theorem learner_load_memoized_witness :
    ((run defaultConfig initialState
        [Op.findOp "q" 1 false none, Op.findOp "q" 1 true none]).2).count
      LearnerCall.load ≤ 1
    ∧ (run defaultConfig { initialState with learner := LoadState.failed }
        [Op.destroyOp]).1.learner = LoadState.failed :=
  ⟨learner_load_memoized.1 defaultConfig [Op.findOp "q" 1 false none, Op.findOp "q" 1 true none],
   (learner_load_memoized.2 defaultConfig [Op.destroyOp]
      { initialState with learner := LoadState.failed } rfl).1⟩

/-- C8: every call to `onInsightRecorded` on an enabled, non-destroyed
bridge emits the `insight:learning-started` event with payload
`{entryId, category}` exactly once — whether the learner load fails (`lo`)
or the begin/record calls throw (`beginResult = none`), such failures are
swallowed. -/
theorem record_always_emits_started :
    ∀ (cfg : LearningBridgeConfig) (s : BridgeState) (i : Insight) (entryId : String)
      (lo : Bool) (beginResult : Option String),
      cfg.enabled = true → s.destroyed = false →
      (onInsightRecorded cfg s i entryId lo beginResult).events =
        [Event.learningStarted entryId i.category] := by
  intro cfg s i entryId lo beginResult hen hd
  cases beginResult <;> simp [onInsightRecorded, hen, hd] <;> split <;> simp

theorem record_always_emits_started_witness :
    (onInsightRecorded defaultConfig initialState
        ⟨"debugging", "HNSW index requires initialization before search",
         "agent:tester", 19/20⟩ "entry-1" false none).events =
      [Event.learningStarted "entry-1" "debugging"] :=
  record_always_emits_started defaultConfig initialState
    ⟨"debugging", "HNSW index requires initialization before search",
     "agent:tester", 19/20⟩ "entry-1" false none rfl rfl

/-- C9: when `onInsightAccessed` writes the boosted confidence back, the
written metadata preserves every key other than `"confidence"` verbatim:
any update call it issues agrees with the fetched entry's metadata on every
other key; for an entry with metadata `{confidence, category, extra}` the
written record keeps `category` and `extra` unchanged and only `confidence`
differs. -/
theorem access_preserves_other_metadata :
    (∀ (cfg : LearningBridgeConfig) (s : BridgeState) (entryId : String) (lo : Bool)
        (e : Entry) (id : String) (md : List (String × MetaVal)) (key : String),
      BackendCall.update id md ∈ (onInsightAccessed cfg s entryId lo (some e)).backendCalls →
      key ≠ "confidence" → md.lookup key = e.metadata.lookup key)
    ∧ (onInsightAccessed defaultConfig initialState "entry-1" true
          (some entryExtra)).backendCalls =
        [BackendCall.get "entry-1",
         BackendCall.update "entry-1"
           [("confidence", MetaVal.num (63/100)), ("category", MetaVal.str "debugging"),
            ("extra", MetaVal.str "preserved")]] := by
  constructor
  · intro cfg s entryId lo e id md key hmem hkey
    cases hd : s.destroyed <;> cases hen : cfg.enabled <;>
      simp [onInsightAccessed, hd, hen] at hmem
    obtain ⟨-, hmd⟩ := hmem
    rw [hmd]
    exact lookup_setAssoc_ne e.metadata key "confidence" _ hkey
  · norm_num [onInsightAccessed, boost, clamp, metaConfidence, setAssoc, entryExtra,
      initialState, defaultConfig, loadAttempt, loadGuardCalls, List.lookup] <;> decide

theorem access_preserves_other_metadata_witness :
    ([("confidence", MetaVal.num (63/100)), ("category", MetaVal.str "debugging"),
      ("extra", MetaVal.str "preserved")] : List (String × MetaVal)).lookup "extra" =
      entryExtra.metadata.lookup "extra" :=
  access_preserves_other_metadata.1 defaultConfig initialState "entry-1" true entryExtra
    "entry-1"
    [("confidence", MetaVal.num (63/100)), ("category", MetaVal.str "debugging"),
     ("extra", MetaVal.str "preserved")] "extra"
    (by rw [access_preserves_other_metadata.2]; simp) (by decide)

/-- C10: a freshly constructed bridge reports all stats counters at zero
(`totalTrajectories`, `completedTrajectories`, `activeTrajectories`,
`totalConsolidations`, `totalDecays`), `avgConfidenceBoost = 0`, and
`neuralAvailable = false` (no learner load attempted yet). -/
theorem initial_stats_zero :
    getStats initialState =
      { totalTrajectories := 0, completedTrajectories := 0, activeTrajectories := 0,
        totalConsolidations := 0, totalDecays := 0, avgConfidenceBoost := 0,
        neuralAvailable := false } := by
  decide

end LearningBridge
